import Mathlib

/-!
  # Verification of the Mayaaimentor real-time voice session engine

  A shallow embedding of the core of `src/components/CallInterface.tsx`:
  the session lifecycle controller (`handleEndCall`, `handleStartCall`,
  the `isEndingRef` single-shot latch), the playback scheduler (the
  `nextStartTimeRef` cursor and the `activeSources` set), the transcript
  assembler (the two accumulator refs and the `turnComplete` branch of
  `onmessage`), the interruption branch, and the billing deduction of
  `performCleanup`.

  The browser's event loop is single-threaded and callback-driven, so every
  handler is embedded as a pure state transformer on `SessionState`;
  fallible browser/network operations are embedded in `Except`, with the
  source's `try { } catch (e) {}` wrappers embedded as explicit swallowing.
  Times (the Web Audio clock) are embedded as `ℚ`.
-/

namespace Maya

/-- The `status` union of `CallInterface.tsx` line 31:
`'idle' | 'connecting' | 'active' | 'summary' | 'permission_denied'`. -/
inductive Status where
  | idle
  | connecting
  | active
  | summary
  | permission_denied
deriving DecidableEq, Repr

/-- The `role` of a `ChatMessage` (`'user' | 'maya'`). -/
inductive Role where
  | user
  | maya
deriving DecidableEq, Repr

/-- A transcript entry, `interface ChatMessage` of the source. -/
structure ChatMessage where
  role : Role
  text : String
deriving DecidableEq, Repr

/-- A correction item, `interface Correction` of the source (the category
union is embedded as a plain string; its value never drives control flow). -/
structure Correction where
  original : String
  corrected : String
  explanation : String
  mentorTip : String
  category : String
deriving DecidableEq, Repr

/-- An `AudioBufferSourceNode` handle held in `activeSources`. The
`stopThrows` flag abstracts whether calling `.stop()` on it would throw
(the source wraps every stop in `try { s.stop(); } catch(e) {}`). -/
structure Source where
  sid : ℕ
  stopThrows : Bool
deriving DecidableEq, Repr

/-- The data the audio branch of `onmessage` observes for one inbound
chunk: the output context's `currentTime` at receipt and the decoded
buffer's `duration`. -/
structure AudioPart where
  now : ℚ
  duration : ℚ
deriving DecidableEq, Repr

/-- The fields of a `LiveServerMessage` the `onmessage` handler reads. -/
structure ServerMessage where
  audio : Option AudioPart
  inputTranscription : Option String
  outputTranscription : Option String
  turnComplete : Bool
  interrupted : Bool
deriving DecidableEq, Repr

/-- The identity read from `auth.currentUser`. -/
structure UserIdent where
  uid : String
  isAnonymous : Bool
deriving DecidableEq, Repr

/-- The ambient environment the handlers read: the credential slots probed
by `getActiveApiKey` (a JS value that may be absent, and falsy when the
empty string), the authenticated user, and the (opaque) parsed result the
analysis collaborator would return on success. -/
structure Env where
  keyCandidates : List (Option String)
  currentUser : Option UserIdent
  analysisResult : List Correction
deriving DecidableEq, Repr

/-- Which of the fallible external operations of the teardown path fail. -/
structure Faults where
  sessionCloseFails : Bool
  ledgerFails : Bool
  analysisFails : Bool
deriving DecidableEq, Repr

/-- The session's mutable state: the React state hooks and refs of
`CallInterface`, plus observation ghosts (`statusTrace` records every
`setStatus` call, `teardownCount` counts executions of the teardown body,
`ledgerRequests` records every ledger deduction requested, `sentFrames`
counts frames handed to the channel, `scheduled` records every
`(start, duration)` pair passed to `source.start`). -/
structure SessionState where
  status : Status
  statusTrace : List Status
  isEnding : Bool
  started : Bool
  elapsed : ℕ
  nextStartTime : ℚ
  currentInputTrans : String
  currentOutputTrans : String
  activeSources : List Source
  nextSourceId : ℕ
  isSpeaking : Bool
  transcripts : List ChatMessage
  errorMsg : Option String
  timerActive : Bool
  streamActive : Bool
  audioCtxOpen : Bool
  sessionOpen : Bool
  teardownCount : ℕ
  ledgerRequests : List ℚ
  sentFrames : ℕ
  reportRequested : Bool
  correctionReport : List Correction
  scheduled : List (ℚ × ℚ)
deriving DecidableEq, Repr

/-- The state at component mount: hook initial values and fresh refs. -/
def initState : SessionState where
  status := Status.idle
  statusTrace := [Status.idle]
  isEnding := false
  started := false
  elapsed := 0
  nextStartTime := 0
  currentInputTrans := ""
  currentOutputTrans := ""
  activeSources := []
  nextSourceId := 0
  isSpeaking := false
  transcripts := []
  errorMsg := none
  timerActive := false
  streamActive := false
  audioCtxOpen := false
  sessionOpen := false
  teardownCount := 0
  ledgerRequests := []
  sentFrames := 0
  reportRequested := false
  correctionReport := []
  scheduled := []

/-- `getActiveApiKey` (lines 67–77): the first truthy credential among the
probed slots (`a || b || ...`); an absent slot and the empty string are
both falsy. -/
def getActiveApiKey (env : Env) : Option String :=
  env.keyCandidates.findSome? fun c =>
    match c with
    | some s => if s = "" then none else some s
    | none => none

/-- `performCleanup` line 109: `const creditsToDeduct = elapsedRef.current / 60`
(JS float division, exact here on `ℚ`). -/
def creditsToDeduct (elapsedSeconds : ℕ) : ℚ :=
  (elapsedSeconds : ℚ) / 60

/-- `s.stop()` on an `AudioBufferSourceNode`: throws exactly when the
handle's abstract `stopThrows` flag says so. -/
def stopSourceE (src : Source) : Except String Unit :=
  if src.stopThrows then Except.error "InvalidStateError" else Except.ok ()

/-- `try { s.stop(); } catch(e) {}` — the stop with its error swallowed. -/
def stopCaught (src : Source) : Except String Unit :=
  match stopSourceE src with
  | Except.ok _ => Except.ok ()
  | Except.error _ => Except.ok ()

/-- `activeSources.current.forEach(s => { try { s.stop(); } catch(e) {} })`:
each stop individually wrapped; an uncaught error would abort the loop. -/
def stopAllCaught : List Source → Except String Unit
  | [] => Except.ok ()
  | src :: rest =>
    match stopCaught src with
    | Except.ok _ => stopAllCaught rest
    | Except.error e => Except.error e

/-- The `message.serverContent?.interrupted` branch of `onmessage`
(lines 422–427): stop every active source (errors swallowed per source),
clear the set, reset the cursor to zero, clear the speaking indicator. -/
def handleInterruptedE (s : SessionState) : Except String SessionState :=
  match stopAllCaught s.activeSources with
  | Except.ok _ =>
      Except.ok { s with activeSources := [], nextStartTime := 0, isSpeaking := false }
  | Except.error e => Except.error e

/-- The interruption branch as run inside the handler (no error escapes the
per-source catches, so the error arm is unreachable). -/
def runInterrupted (s : SessionState) : SessionState :=
  match handleInterruptedE s with
  | Except.ok t => t
  | Except.error _ => s

/-- The audio branch of `onmessage` (lines 386–400): clamp the cursor to
`max(cursor, currentTime)`, start the decoded buffer at the cursor, advance
the cursor by the buffer's duration, track the new source, raise the
speaking indicator. -/
def enqueueChunk (a : AudioPart) (s : SessionState) : SessionState :=
  let start := max s.nextStartTime a.now
  { s with nextStartTime := start + a.duration,
           activeSources := s.activeSources ++ [{ sid := s.nextSourceId, stopThrows := false }],
           nextSourceId := s.nextSourceId + 1,
           isSpeaking := true,
           scheduled := s.scheduled ++ [(start, a.duration)] }

/-- The `turnComplete` branch of `onmessage` (lines 410–421): trim both
accumulators, append the user turn then the maya turn (each only when its
trimmed text is non-empty), then clear both accumulators. -/
def completeTurn (s : SessionState) : SessionState :=
  let uText := s.currentInputTrans.trim
  let mText := s.currentOutputTrans.trim
  let s1 :=
    if uText ≠ "" ∨ mText ≠ "" then
      { s with transcripts := s.transcripts ++
          ((if uText ≠ "" then [{ role := Role.user, text := uText }] else []) ++
           (if mText ≠ "" then [{ role := Role.maya, text := mText }] else [])) }
    else s
  { s1 with currentInputTrans := "", currentOutputTrans := "" }

/-- The `onmessage` callback (lines 383–428): guard on the `isEndingRef`
latch, then the audio, transcription, turn-complete and interrupted
branches in source order. -/
def onmessage (msg : ServerMessage) (s : SessionState) : SessionState :=
  if s.isEnding then s
  else
    let s1 :=
      match msg.audio with
      | some a => enqueueChunk a s
      | none => s
    let s2 :=
      match msg.inputTranscription with
      | some t => { s1 with currentInputTrans := s1.currentInputTrans ++ t }
      | none => s1
    let s3 :=
      match msg.outputTranscription with
      | some t => { s2 with currentOutputTrans := s2.currentOutputTrans ++ t }
      | none => s2
    let s4 := if msg.turnComplete then completeTurn s3 else s3
    if msg.interrupted then runInterrupted s4 else s4

/-- `scriptProcessor.onaudioprocess` (lines 372–379): guard on the latch,
otherwise encode the frame and hand it to the channel. -/
def onaudioprocess (s : SessionState) : SessionState :=
  if s.isEnding then s else { s with sentFrames := s.sentFrames + 1 }

/-- `generateCorrectionReport` (lines 119–153): return immediately on an
empty transcript or a missing credential; otherwise issue the analysis
request, and on success store the parsed report (the `catch` swallows a
failed request, leaving the report untouched). -/
def generateCorrectionReport (f : Faults) (env : Env) (finalTranscripts : List ChatMessage)
    (s : SessionState) : SessionState :=
  if finalTranscripts.length = 0 then s
  else
    match getActiveApiKey env with
    | none => s
    | some _ =>
      if f.analysisFails then { s with reportRequested := true }
      else { s with reportRequested := true, correctionReport := env.analysisResult }

/-- The billing step of `performCleanup` (lines 107–113): request a
deduction of `elapsed / 60` fractional minutes exactly when a signed-in,
non-anonymous user exists and the metered time is positive. -/
def deductLedger (env : Env) (elapsedSeconds : ℕ) (s : SessionState) : SessionState :=
  match env.currentUser with
  | some u =>
      if u.isAnonymous = false ∧ 0 < elapsedSeconds then
        { s with ledgerRequests := s.ledgerRequests ++ [creditsToDeduct elapsedSeconds] }
      else s
  | none => s

/-- `handleEndCall` (lines 85–117), final-state view: the `isEndingRef`
single-shot latch, then the teardown body — status to summary, ticker
stopped, microphone tracks stopped, active sources stopped and cleared,
audio contexts closed, channel closed, the billing deduction, and the
hand-off of the transcript to the analysis collaborator. -/
def handleEndCall (f : Faults) (env : Env) (s : SessionState) : SessionState :=
  if s.isEnding then s
  else
    let s1 := { s with isEnding := true,
                       status := Status.summary,
                       statusTrace := s.statusTrace ++ [Status.summary],
                       timerActive := false,
                       streamActive := false,
                       activeSources := [],
                       audioCtxOpen := false,
                       sessionOpen := false,
                       teardownCount := s.teardownCount + 1 }
    let s2 := deductLedger env s.elapsed s1
    generateCorrectionReport f env s2.transcripts s2

/-- `try { await sessionRef.current.close(); }` — may fail. -/
def closeSessionOp (f : Faults) : Except String Unit :=
  if f.sessionCloseFails then Except.error "session close failed" else Except.ok ()

/-- `await updateDoc(...)` for the credit deduction — may fail. -/
def ledgerOp (f : Faults) : Except String Unit :=
  if f.ledgerFails then Except.error "updateDoc failed" else Except.ok ()

/-- A `try { act } catch (e) {}` wrapper: the error is swallowed. -/
def tryCatch0 (act : Except String Unit) : Except String Unit :=
  match act with
  | Except.ok _ => Except.ok ()
  | Except.error _ => Except.ok ()

/-- `handleEndCall` step by step in `Except`, with the source's `try/catch`
wrappers placed exactly where the source has them (per-source stop,
session close, ledger write, analysis request); an error in any unwrapped
position would abort the remaining steps. -/
def handleEndCallE (f : Faults) (env : Env) (s : SessionState) : Except String SessionState :=
  if s.isEnding then Except.ok s
  else
    let s1 := { s with isEnding := true,
                       status := Status.summary,
                       statusTrace := s.statusTrace ++ [Status.summary],
                       teardownCount := s.teardownCount + 1,
                       timerActive := false,
                       streamActive := false }
    match stopAllCaught s1.activeSources with
    | Except.error e => Except.error e
    | Except.ok _ =>
      let s2 := { s1 with activeSources := [] }
      let s3 := { s2 with audioCtxOpen := false }
      match tryCatch0 (closeSessionOp f) with
      | Except.error e => Except.error e
      | Except.ok _ =>
        let s4 := { s3 with sessionOpen := false }
        let s5 :=
          match env.currentUser with
          | some u =>
              if u.isAnonymous = false ∧ 0 < s.elapsed then
                { s4 with ledgerRequests := s4.ledgerRequests ++ [creditsToDeduct s.elapsed] }
              else s4
          | none => s4
        match tryCatch0 (ledgerOp f) with
        | Except.error e => Except.error e
        | Except.ok _ =>
            Except.ok (generateCorrectionReport f env s5.transcripts s5)

/-- The `onclose` callback (line 430): `if (!isEndingRef.current) handleEndCall()`. -/
def onclose (f : Faults) (env : Env) (s : SessionState) : SessionState :=
  if s.isEnding then s else handleEndCall f env s

/-- The `onerror` callback (line 429): `setError("Connection Error. Check internet.")`. -/
def onerror (s : SessionState) : SessionState :=
  { s with errorMsg := some "Connection Error. Check internet." }

/-- The three session-end triggers the spec names. -/
inductive EndTrigger where
  | userEnd
  | remoteClose
  | remoteError
deriving DecidableEq, Repr

/-- Dispatch one trigger to its handler: the end button calls
`handleEndCall`, the channel invokes `onclose` or `onerror`. -/
def fireTrigger (f : Faults) (env : Env) (t : EndTrigger) (s : SessionState) : SessionState :=
  match t with
  | EndTrigger.userEnd => handleEndCall f env s
  | EndTrigger.remoteClose => onclose f env s
  | EndTrigger.remoteError => onerror s

/-- A whole interleaving of triggers, processed in order on the single
event-loop thread. -/
def fireAll (f : Faults) (env : Env) (ts : List EndTrigger) (s : SessionState) : SessionState :=
  ts.foldl (fun st t => fireTrigger f env t st) s

/-- The unmount cleanup (line 453):
`return () => { if (!isEndingRef.current) handleEndCall(); }` — runs once
when the call view is destroyed, ending every session. -/
def unmountCleanup (f : Faults) (env : Env) (s : SessionState) : SessionState :=
  if s.isEnding then s else handleEndCall f env s

/-- `handleStartCall` (lines 335–449) up to the point the microphone
resolves: the `startedRef` guard, `setError(null)`, `setStatus('connecting')`,
the credential check (`throw new Error("No API Key")`), then `getUserMedia`;
the `catch` sets the error message and `setStatus('idle')`. -/
def handleStartCall (env : Env) (micResult : Except String Unit) (s : SessionState) :
    SessionState :=
  if s.started then s
  else
    let s1 := { s with errorMsg := none,
                       status := Status.connecting,
                       statusTrace := s.statusTrace ++ [Status.connecting] }
    match getActiveApiKey env with
    | none =>
        { s1 with errorMsg := some "No API Key", status := Status.idle,
                  statusTrace := s1.statusTrace ++ [Status.idle] }
    | some _ =>
      match micResult with
      | Except.error msg =>
          { s1 with errorMsg := some msg, status := Status.idle,
                    statusTrace := s1.statusTrace ++ [Status.idle] }
      | Except.ok _ => { s1 with streamActive := true, audioCtxOpen := true }

/-- Scheduling a list of inbound chunks back to back. -/
def playSeq (chunks : List AudioPart) (s : SessionState) : SessionState :=
  chunks.foldl (fun st a => enqueueChunk a st) s

/-- One scheduled buffer ends no later than the next one starts. -/
abbrev chunkFits (p q : ℚ × ℚ) : Prop := p.1 + p.2 ≤ q.1

/-- The end of the last scheduled buffer is at most `c`. -/
def lastEndLE (sched : List (ℚ × ℚ)) (c : ℚ) : Prop :=
  ∀ p, sched.getLast? = some p → p.1 + p.2 ≤ c

/-- The scheduler invariant: scheduled buffers are pairwise non-overlapping
in order, and the cursor sits at or after the end of the last one. -/
def schedInv (s : SessionState) : Prop :=
  List.Chain' chunkFits s.scheduled ∧ lastEndLE s.scheduled s.nextStartTime

/-- The deduction amounts one run of the billing step requests. -/
def ledgerAmounts (env : Env) (elapsedSeconds : ℕ) : List ℚ :=
  match env.currentUser with
  | some u => if u.isAnonymous = false ∧ 0 < elapsedSeconds then [creditsToDeduct elapsedSeconds] else []
  | none => []

/-- Whether `generateCorrectionReport` gets past its two early returns. -/
def reportIssued (env : Env) (tr : List ChatMessage) : Bool :=
  decide (tr.length ≠ 0) && (getActiveApiKey env).isSome

/-- The stored correction report after one run of `generateCorrectionReport`. -/
def reportResult (f : Faults) (env : Env) (tr : List ChatMessage)
    (old : List Correction) : List Correction :=
  if reportIssued env tr && !f.analysisFails then env.analysisResult else old

/-- The ChatTurn records one turn boundary appends: the user turn then the
maya turn, each present exactly when its trimmed accumulator is non-empty. -/
def turnAdds (uIn mOut : String) : List ChatMessage :=
  (if uIn.trim ≠ "" then [{ role := Role.user, text := uIn.trim }] else []) ++
  (if mOut.trim ≠ "" then [{ role := Role.maya, text := mOut.trim }] else [])

/-- What one `onmessage` call appends to the transcript: the turn records
of the (possibly just-extended) accumulators when the message carries a
turn-complete marker and the latch is clear, nothing otherwise. -/
def turnTail (msg : ServerMessage) (s : SessionState) : List ChatMessage :=
  if s.isEnding then []
  else if msg.turnComplete then
    turnAdds
      (match msg.inputTranscription with
       | some t => s.currentInputTrans ++ t
       | none => s.currentInputTrans)
      (match msg.outputTranscription with
       | some t => s.currentOutputTrans ++ t
       | none => s.currentOutputTrans)
  else []

/-- The latch accounting: the teardown body has run exactly once when the
latch is set and never when it is clear. -/
def endInv (s : SessionState) : Prop :=
  s.teardownCount = if s.isEnding then 1 else 0

/-- A concrete environment for witnesses: one credential slot set, a
signed-in non-anonymous user. -/
def envW : Env where
  keyCandidates := [some "test-key"]
  currentUser := some { uid := "u1", isAnonymous := false }
  analysisResult := []

/-- No external operation fails. -/
def fW : Faults where
  sessionCloseFails := false
  ledgerFails := false
  analysisFails := false

/-- Every fallible external operation fails. -/
def fAll : Faults where
  sessionCloseFails := true
  ledgerFails := true
  analysisFails := true

/-- A concrete inbound message exercising every branch of `onmessage`. -/
def msgW : ServerMessage where
  audio := some { now := 1, duration := 2 }
  inputTranscription := some "hello"
  outputTranscription := some "hi there"
  turnComplete := true
  interrupted := true

/-- A concrete mid-call state: active, latch clear, some metered time. -/
def activeCallState : SessionState :=
  { initState with status := Status.active, started := true, elapsed := 5,
                   timerActive := true, streamActive := true,
                   audioCtxOpen := true, sessionOpen := true }

/-! ## Helper lemmas -/

@[simp] lemma stopCaught_eq (src : Source) : stopCaught src = Except.ok () := by
  cases h : src.stopThrows <;> simp [stopCaught, stopSourceE, h]

@[simp] lemma stopAllCaught_eq (srcs : List Source) : stopAllCaught srcs = Except.ok () := by
  induction srcs with
  | nil => rfl
  | cons a l ih => simp [stopAllCaught, ih]

@[simp] lemma handleInterruptedE_eq (s : SessionState) :
    handleInterruptedE s =
      Except.ok { s with activeSources := [], nextStartTime := 0, isSpeaking := false } := by
  simp [handleInterruptedE]

@[simp] lemma runInterrupted_eq (s : SessionState) :
    runInterrupted s = { s with activeSources := [], nextStartTime := 0, isSpeaking := false } := by
  simp [runInterrupted]

@[simp] lemma deductLedger_eq (env : Env) (e : ℕ) (s : SessionState) :
    deductLedger env e s =
      { s with ledgerRequests := s.ledgerRequests ++ ledgerAmounts env e } := by
  unfold deductLedger ledgerAmounts
  cases env.currentUser with
  | none => cases s; simp
  | some u =>
    by_cases hc : u.isAnonymous = false ∧ 0 < e
    · cases s; simp [hc]
    · cases s; simp [hc]

@[simp] lemma generateCorrectionReport_eq (f : Faults) (env : Env)
    (tr : List ChatMessage) (s : SessionState) :
    generateCorrectionReport f env tr s =
      { s with reportRequested := s.reportRequested || reportIssued env tr,
               correctionReport := reportResult f env tr s.correctionReport } := by
  by_cases h0 : tr.length = 0
  · have hi : reportIssued env tr = false := by simp [reportIssued, h0]
    cases s; simp [generateCorrectionReport, reportResult, h0, hi]
  · cases hk : getActiveApiKey env with
    | none =>
      have hi : reportIssued env tr = false := by simp [reportIssued, hk]
      cases s; simp [generateCorrectionReport, reportResult, h0, hk, hi]
    | some k =>
      have hi : reportIssued env tr = true := by simp [reportIssued, h0, hk]
      by_cases hf : f.analysisFails
      · cases s; simp [generateCorrectionReport, reportResult, h0, hk, hf, hi]
      · cases s; simp [generateCorrectionReport, reportResult, h0, hk, hf, hi]

@[simp] lemma completeTurn_eq (s : SessionState) :
    completeTurn s =
      { s with transcripts := s.transcripts ++ turnAdds s.currentInputTrans s.currentOutputTrans,
               currentInputTrans := "", currentOutputTrans := "" } := by
  unfold completeTurn turnAdds
  by_cases hu : s.currentInputTrans.trim = "" <;>
    by_cases hm : s.currentOutputTrans.trim = "" <;>
      cases s <;> simp_all

@[simp] lemma tryCatch0_ok (act : Except String Unit) : tryCatch0 act = Except.ok () := by
  cases act <;> rfl

lemma handleEndCall_isEnding_true (f : Faults) (env : Env) (s : SessionState) :
    (handleEndCall f env s).isEnding = true := by
  by_cases h : s.isEnding <;> simp [handleEndCall, h]

lemma handleEndCall_of_latched (f : Faults) (env : Env) (s : SessionState)
    (h : s.isEnding = true) : handleEndCall f env s = s := by
  simp [handleEndCall, h]

lemma onclose_of_latched (f : Faults) (env : Env) (s : SessionState)
    (h : s.isEnding = true) : onclose f env s = s := by
  simp [onclose, h]

lemma endInv_handleEndCall (f : Faults) (env : Env) (s : SessionState)
    (h : endInv s) : endInv (handleEndCall f env s) := by
  unfold endInv at *
  by_cases he : s.isEnding
  · simpa [handleEndCall, he] using h
  · simp [he] at h
    simp [handleEndCall, he, h]

lemma endInv_fireTrigger (f : Faults) (env : Env) (t : EndTrigger) (s : SessionState)
    (h : endInv s) : endInv (fireTrigger f env t s) := by
  cases t with
  | userEnd => exact endInv_handleEndCall f env s h
  | remoteClose =>
    by_cases he : s.isEnding
    · simpa [fireTrigger, onclose, he]
    · simpa [fireTrigger, onclose, he] using endInv_handleEndCall f env s h
  | remoteError => simpa [fireTrigger, onerror, endInv] using h

lemma endInv_fireAll (f : Faults) (env : Env) (ts : List EndTrigger) :
    ∀ s : SessionState, endInv s → endInv (fireAll f env ts s) := by
  induction ts with
  | nil => intro s h; exact h
  | cons t l ih =>
    intro s h
    exact ih (fireTrigger f env t s) (endInv_fireTrigger f env t s h)

/-! ## Claim theorems -/

/-- C1: over every interleaving of the end triggers (user end request,
remote close, remote error) followed by the view's unmount cleanup, the
teardown body runs exactly once; the first `handleEndCall` sets the
`isEndingRef` latch, every later call returns immediately, and `onclose`
invokes `handleEndCall` only when the latch is clear. -/
theorem teardown_exactly_once_per_session (f : Faults) (env : Env)
    (ts : List EndTrigger) (s : SessionState)
    (h0 : s.isEnding = false) (h1 : s.teardownCount = 0) :
    (unmountCleanup f env (fireAll f env ts s)).teardownCount = 1 ∧
    (handleEndCall f env s).isEnding = true ∧
    (∀ t : SessionState, t.isEnding = true → handleEndCall f env t = t) ∧
    (∀ t : SessionState, t.isEnding = true → onclose f env t = t) := by
  have hinv : endInv s := by unfold endInv; simp [h0, h1]
  have hA : endInv (fireAll f env ts s) := endInv_fireAll f env ts s hinv
  refine ⟨?_, handleEndCall_isEnding_true f env s, handleEndCall_of_latched f env,
    onclose_of_latched f env⟩
  unfold unmountCleanup
  by_cases hb : (fireAll f env ts s).isEnding
  · unfold endInv at hA
    simp [hb] at hA ⊢
    exact hA
  · simp [hb]
    have hend := endInv_handleEndCall f env _ hA
    unfold endInv at hend
    rwa [handleEndCall_isEnding_true, if_pos rfl] at hend

/-- Witness for C1: error, close and user-end all fire, then unmount. -/
theorem teardown_exactly_once_per_session_witness :
    (unmountCleanup fW envW (fireAll fW envW
      [EndTrigger.remoteError, EndTrigger.remoteClose, EndTrigger.userEnd]
      activeCallState)).teardownCount = 1 :=
  (teardown_exactly_once_per_session fW envW
    [EndTrigger.remoteError, EndTrigger.remoteClose, EndTrigger.userEnd]
    activeCallState rfl rfl).1

/-- C2: the interruption branch always succeeds (every per-source stop
error is swallowed), leaves the ActiveSourceSet empty, resets the cursor
to zero and clears the speaking indicator; it is idempotent and a no-op on
an already-clear scheduler. -/
theorem interruption_clears_resets_idempotent (s : SessionState) :
    handleInterruptedE s =
      Except.ok { s with activeSources := [], nextStartTime := 0, isSpeaking := false } ∧
    (∀ t, handleInterruptedE s = Except.ok t →
      handleInterruptedE t = Except.ok t ∧
      t.activeSources = [] ∧ t.nextStartTime = 0 ∧ t.isSpeaking = false) ∧
    (s.activeSources = [] → s.nextStartTime = 0 → s.isSpeaking = false →
      handleInterruptedE s = Except.ok s) := by
  refine ⟨handleInterruptedE_eq s, ?_, ?_⟩
  · intro t ht
    rw [handleInterruptedE_eq] at ht
    injection ht with ht
    subst ht
    refine ⟨?_, rfl, rfl, rfl⟩
    rw [handleInterruptedE_eq]
  · intro h1 h2 h3
    rw [handleInterruptedE_eq]
    cases s
    simp_all

/-- Witness for C2: a two-source scheduler (one stop throwing) is cleared;
the already-clear scheduler is untouched. -/
theorem interruption_clears_resets_idempotent_witness :
    handleInterruptedE { initState with
        activeSources := [{ sid := 0, stopThrows := true }, { sid := 1, stopThrows := false }],
        nextStartTime := 5, isSpeaking := true } = Except.ok initState ∧
    handleInterruptedE initState = Except.ok initState := by
  constructor
  · exact (interruption_clears_resets_idempotent _).1
  · exact (interruption_clears_resets_idempotent initState).2.2 rfl rfl rfl

/-- C5: teardown requests exactly one deduction of `elapsed / 60`
fractional minutes when a signed-in non-anonymous user exists and metered
time is positive, and no deduction for guests, missing identities or zero
elapsed time; 90 seconds yields 3/2, not 90 and not 2. -/
theorem billing_fractional_minutes (f : Faults) (env : Env) (s : SessionState)
    (h : s.isEnding = false) :
    (handleEndCall f env s).ledgerRequests =
      s.ledgerRequests ++
        (match env.currentUser with
         | some u =>
             if u.isAnonymous = false ∧ 0 < s.elapsed then [creditsToDeduct s.elapsed] else []
         | none => []) ∧
    creditsToDeduct 90 = 3 / 2 ∧
    creditsToDeduct 90 ≠ 90 ∧
    creditsToDeduct 90 ≠ 2 := by
  refine ⟨?_, by norm_num [creditsToDeduct], by norm_num [creditsToDeduct],
    by norm_num [creditsToDeduct]⟩
  simp [handleEndCall, h, ledgerAmounts]

/-- Witness for C5: a billable 90-second session requests exactly [3/2]. -/
theorem billing_fractional_minutes_witness :
    (handleEndCall fW envW { activeCallState with elapsed := 90 }).ledgerRequests
      = [(3 : ℚ) / 2] := by
  have h := billing_fractional_minutes fW envW { activeCallState with elapsed := 90 } rfl
  rw [h.1]
  norm_num [envW, activeCallState, initState, creditsToDeduct]

/-- C7 counterexample: on a live call, a remote channel error does not run
the teardown (the latch stays clear and the count stays zero), and a
remote close ends in the summary state with no error message surfaced. -/
theorem remote_error_no_teardown_counterexample :
    (onerror activeCallState).teardownCount = 0 ∧
    (onerror activeCallState).isEnding = false ∧
    (onclose fW envW activeCallState).status = Status.summary ∧
    (onclose fW envW activeCallState).errorMsg = none :=
  ⟨rfl, rfl, rfl, rfl⟩

/-- C7 amended: a remote close before an explicit end runs the same
single-shot teardown as a normal end and lands in the summary state; a
remote error does not trigger teardown and only records an error message. -/
theorem remote_close_teardown_error_message_only (f : Faults) (env : Env)
    (s : SessionState) (h : s.isEnding = false) :
    onclose f env s = handleEndCall f env s ∧
    (onclose f env s).isEnding = true ∧
    (onclose f env s).teardownCount = s.teardownCount + 1 ∧
    (onclose f env s).status = Status.summary ∧
    onerror s = { s with errorMsg := some "Connection Error. Check internet." } ∧
    (onerror s).teardownCount = s.teardownCount ∧
    (onerror s).isEnding = s.isEnding := by
  refine ⟨by simp [onclose, h], ?_, ?_, ?_, rfl, rfl, rfl⟩
  · simp [onclose, h, handleEndCall_isEnding_true]
  · simp [onclose, h, handleEndCall, ledgerAmounts]
  · simp [onclose, h, handleEndCall]

/-- Witness for C7: the remote close of a live call sets the latch. -/
theorem remote_close_teardown_error_message_only_witness :
    (onclose fW envW activeCallState).isEnding = true :=
  (remote_close_teardown_error_message_only fW envW activeCallState rfl).2.1

/-- C9: once the latch is set, an inbound channel message and a microphone
capture callback leave the whole session state untouched — no cursor,
source-set, accumulator or transcript mutation, and no frame is sent. -/
theorem post_teardown_events_are_noops (msg : ServerMessage) (s : SessionState)
    (h : s.isEnding = true) :
    onmessage msg s = s ∧ onaudioprocess s = s := by
  constructor
  · simp [onmessage, h]
  · simp [onaudioprocess, h]

/-- Witness for C9: a full-featured message and a capture callback on a
latched state change nothing. -/
theorem post_teardown_events_are_noops_witness :
    onmessage msgW { initState with isEnding := true } = { initState with isEnding := true } ∧
    onaudioprocess { initState with isEnding := true } = { initState with isEnding := true } :=
  post_teardown_events_are_noops msgW { initState with isEnding := true } rfl

/-- C10: with an empty finalized transcript or no resolvable credential,
`generateCorrectionReport` returns without issuing the analysis request,
and the stored correction report is unchanged. -/
theorem report_skipped_without_transcript_or_key (f : Faults) (env : Env)
    (tr : List ChatMessage) (s : SessionState)
    (h : tr = [] ∨ getActiveApiKey env = none) :
    generateCorrectionReport f env tr s = s ∧
    (generateCorrectionReport f env tr s).reportRequested = s.reportRequested ∧
    (generateCorrectionReport f env tr s).correctionReport = s.correctionReport := by
  have hi : reportIssued env tr = false := by
    rcases h with h | h
    · simp [reportIssued, h]
    · simp [reportIssued, h]
  have he : generateCorrectionReport f env tr s = s := by
    rw [generateCorrectionReport_eq]
    cases s
    simp [reportResult, hi]
  exact ⟨he, by rw [he], by rw [he]⟩

/-- Witness for C10: empty transcript, all faults armed — nothing happens. -/
theorem report_skipped_without_transcript_or_key_witness :
    generateCorrectionReport fAll envW [] activeCallState = activeCallState :=
  (report_skipped_without_transcript_or_key fAll envW [] activeCallState (Or.inl rfl)).1

/-- C6 counterexample: with a credential present, a denied microphone
leaves the session in the `idle` state, not the declared but never-entered
`permission_denied` state. -/
theorem mic_denied_counterexample :
    (handleStartCall envW (Except.error "Permission denied") initState).status = Status.idle ∧
    (handleStartCall envW (Except.error "Permission denied") initState).status ≠
      Status.permission_denied := by
  refine ⟨rfl, ?_⟩
  intro hc
  rw [show (handleStartCall envW (Except.error "Permission denied") initState).status
      = Status.idle from rfl] at hc
  exact Status.noConfusion hc

/-- C6 amended: a microphone acquisition failure during call start walks
the states idle → connecting → idle, records the failure message, and
performs nothing else — in particular no channel-dependent teardown step
runs and nothing escapes the catch. -/
theorem mic_failure_returns_to_idle (env : Env) (s : SessionState) (msg : String)
    (h0 : s.started = false) (h1 : (getActiveApiKey env).isSome = true) :
    handleStartCall env (Except.error msg) s =
      { s with errorMsg := some msg, status := Status.idle,
               statusTrace := s.statusTrace ++ [Status.connecting, Status.idle] } := by
  obtain ⟨k, hk⟩ := Option.isSome_iff_exists.mp h1
  cases s
  simp_all [handleStartCall]

/-- Witness for C6: mic denied at mount, trace is idle-connecting-idle. -/
theorem mic_failure_returns_to_idle_witness :
    handleStartCall envW (Except.error "Permission denied") initState =
      { initState with errorMsg := some "Permission denied", status := Status.idle,
                       statusTrace := [Status.idle, Status.connecting, Status.idle] } := by
  rw [mic_failure_returns_to_idle envW initState "Permission denied" rfl rfl]
  rfl

/-- C8: for every combination of failing external operations and every
set of throwing source handles, the stepwise teardown never aborts — it
returns exactly the final teardown state — and every release step has run:
ticker stopped, microphone released, source set emptied, audio contexts
closed, channel closed. In particular a ledger failure blocks nothing. -/
theorem teardown_steps_isolated (f : Faults) (env : Env) (s : SessionState) :
    handleEndCallE f env s = Except.ok (handleEndCall f env s) ∧
    (s.isEnding = false →
      (handleEndCall f env s).timerActive = false ∧
      (handleEndCall f env s).streamActive = false ∧
      (handleEndCall f env s).activeSources = [] ∧
      (handleEndCall f env s).audioCtxOpen = false ∧
      (handleEndCall f env s).sessionOpen = false ∧
      (handleEndCall f env s).isEnding = true) := by
  constructor
  · by_cases h : s.isEnding
    · simp [handleEndCallE, handleEndCall, h]
    · cases hcu : env.currentUser with
      | none => simp [handleEndCallE, handleEndCall, h, hcu, ledgerAmounts]
      | some u =>
        by_cases hb : u.isAnonymous = false ∧ 0 < s.elapsed
        · simp [handleEndCallE, handleEndCall, h, hcu, hb, ledgerAmounts]
        · simp [handleEndCallE, handleEndCall, h, hcu, hb, ledgerAmounts]
  · intro h
    simp [handleEndCall, h]

@[simp] lemma enqueueChunk_transcripts (a : AudioPart) (s : SessionState) :
    (enqueueChunk a s).transcripts = s.transcripts := by
  simp [enqueueChunk]

@[simp] lemma enqueueChunk_currentInputTrans (a : AudioPart) (s : SessionState) :
    (enqueueChunk a s).currentInputTrans = s.currentInputTrans := by
  simp [enqueueChunk]

@[simp] lemma enqueueChunk_currentOutputTrans (a : AudioPart) (s : SessionState) :
    (enqueueChunk a s).currentOutputTrans = s.currentOutputTrans := by
  simp [enqueueChunk]

@[simp] lemma enqueueChunk_scheduled (a : AudioPart) (s : SessionState) :
    (enqueueChunk a s).scheduled =
      s.scheduled ++ [(max s.nextStartTime a.now, a.duration)] := by
  simp [enqueueChunk]

@[simp] lemma enqueueChunk_nextStartTime (a : AudioPart) (s : SessionState) :
    (enqueueChunk a s).nextStartTime = max s.nextStartTime a.now + a.duration := by
  simp [enqueueChunk]

lemma onmessage_transcripts_eq (msg : ServerMessage) (s : SessionState) :
    (onmessage msg s).transcripts = s.transcripts ++ turnTail msg s := by
  unfold onmessage turnTail
  by_cases h : s.isEnding
  · simp [h]
  · rcases msg with ⟨a, it, ot, tc, ir⟩
    cases a <;> cases it <;> cases ot <;> cases tc <;> cases ir <;>
      simp [h, enqueueChunk, List.append_assoc]

lemma schedInv_enqueue (a : AudioPart) (s : SessionState)
    (h : schedInv s) : schedInv (enqueueChunk a s) := by
  obtain ⟨hc, hl⟩ := h
  constructor
  · rw [enqueueChunk_scheduled]
    refine List.Chain'.append hc (List.chain'_singleton _) ?_
    intro x hx y hy
    simp only [List.head?_cons, Option.mem_def, Option.some.injEq] at hy
    subst hy
    exact le_trans (hl x hx) (le_max_left _ _)
  · intro p hp
    simp only [enqueueChunk_scheduled, List.getLast?_concat] at hp
    rw [enqueueChunk_nextStartTime]
    cases hp
    exact le_refl _

lemma schedInv_playSeq (chunks : List AudioPart) :
    ∀ s : SessionState, schedInv s → schedInv (playSeq chunks s) := by
  induction chunks with
  | nil => intro s h; exact h
  | cons a l ih =>
    intro s h
    exact ih (enqueueChunk a s) (schedInv_enqueue a s h)

lemma playSeq_cursor_mono (chunks : List AudioPart) :
    ∀ s : SessionState, (∀ a ∈ chunks, 0 ≤ a.duration) →
      s.nextStartTime ≤ (playSeq chunks s).nextStartTime := by
  induction chunks with
  | nil => intro s _; exact le_refl _
  | cons a l ih =>
    intro s hall
    have h1 : s.nextStartTime ≤ (enqueueChunk a s).nextStartTime := by
      rw [enqueueChunk_nextStartTime]
      have h2 := le_max_left s.nextStartTime a.now
      have h3 := hall a (List.mem_cons_self a l)
      linarith
    exact le_trans h1
      (ih (enqueueChunk a s) (fun b hb => hall b (List.mem_cons_of_mem a hb)))

/-- C3: each enqueue starts its chunk at `max(cursor, now)` and advances
the cursor by exactly the buffer's duration; over any interruption-free
chunk sequence the scheduled intervals are chained — each chunk starts at
or after the previous chunk's end — and the cursor never decreases. -/
theorem scheduler_no_overlap_cursor_monotone (s : SessionState)
    (chunks : List AudioPart)
    (hd : ∀ a ∈ chunks, 0 ≤ a.duration) (hinv : schedInv s) :
    (∀ a : AudioPart,
      (enqueueChunk a s).scheduled =
        s.scheduled ++ [(max s.nextStartTime a.now, a.duration)] ∧
      (enqueueChunk a s).nextStartTime = max s.nextStartTime a.now + a.duration) ∧
    schedInv (playSeq chunks s) ∧
    List.Chain' chunkFits (playSeq chunks s).scheduled ∧
    s.nextStartTime ≤ (playSeq chunks s).nextStartTime := by
  refine ⟨fun a => ⟨enqueueChunk_scheduled a s, enqueueChunk_nextStartTime a s⟩, ?_, ?_, ?_⟩
  · exact schedInv_playSeq chunks s hinv
  · exact (schedInv_playSeq chunks s hinv).1
  · exact playSeq_cursor_mono chunks s hd

/-- Witness for C3: three back-to-back one-second chunks schedule without
overlap and leave the cursor at 3. -/
theorem scheduler_no_overlap_cursor_monotone_witness :
    List.Chain' chunkFits
      (playSeq [{ now := 0, duration := 1 }, { now := 0, duration := 1 },
                { now := 0, duration := 1 }] initState).scheduled ∧
    (playSeq [{ now := 0, duration := 1 }, { now := 0, duration := 1 },
              { now := 0, duration := 1 }] initState).nextStartTime = 3 := by
  have h := scheduler_no_overlap_cursor_monotone initState
    [{ now := 0, duration := 1 }, { now := 0, duration := 1 }, { now := 0, duration := 1 }]
    (by decide) ⟨List.chain'_nil, fun p hp => by simp [initState, lastEndLE] at hp⟩
  refine ⟨h.2.2.1, ?_⟩
  norm_num [playSeq, enqueueChunk, initState]

/-- C4: a turn boundary trims both accumulators, appends the user turn
then the maya turn — each side only when non-empty after trimming — and
clears both accumulators; and every inbound message leaves the existing
transcript entries in place, only ever appending. -/
theorem turn_complete_fixed_order_append_only (s : SessionState) (msg : ServerMessage) :
    (completeTurn s).transcripts =
      s.transcripts ++
        ((if s.currentInputTrans.trim ≠ "" then
            [{ role := Role.user, text := s.currentInputTrans.trim }] else []) ++
         (if s.currentOutputTrans.trim ≠ "" then
            [{ role := Role.maya, text := s.currentOutputTrans.trim }] else [])) ∧
    (completeTurn s).currentInputTrans = "" ∧
    (completeTurn s).currentOutputTrans = "" ∧
    ∃ tail, (onmessage msg s).transcripts = s.transcripts ++ tail :=
  ⟨by simp [turnAdds], by simp, by simp, turnTail msg s, onmessage_transcripts_eq msg s⟩

/-- Witness for C8: every fault armed and a throwing source — the teardown
still completes and the microphone is released. -/
theorem teardown_steps_isolated_witness :
    handleEndCallE fAll envW
        { activeCallState with activeSources := [{ sid := 0, stopThrows := true }] } =
      Except.ok (handleEndCall fAll envW
        { activeCallState with activeSources := [{ sid := 0, stopThrows := true }] }) ∧
    (handleEndCall fAll envW
        { activeCallState with activeSources := [{ sid := 0, stopThrows := true }] }).streamActive
      = false := by
  have h := teardown_steps_isolated fAll envW
    { activeCallState with activeSources := [{ sid := 0, stopThrows := true }] }
  exact ⟨h.1, (h.2 rfl).2.1⟩

end Maya
